import Mathlib

/-!
Verification development for `app.py`, a mini crowdfunding web application
(Streamlit + sqlite3).

Modelling conventions:
* SQL `REAL` columns are modelled by `ℚ` (exact arithmetic).
* A table is a list of row structures; `NOT NULL` columns are non-`Option`
  fields, nullable columns are `Option` fields.
* `AUTOINCREMENT` primary keys are modelled by per-table counters in the
  database state; ids are assigned from the counter and the counter only
  grows, which matches sqlite `AUTOINCREMENT` (ids are never reused).
* `datetime.utcnow().isoformat()` is an external input; every operation that
  stores a timestamp takes it as an explicit `now : String` argument.
* `ORDER BY created_at` clauses only permute the displayed rows and are
  abstracted away: list functions return the rows in table order, and all
  theorems below quantify over row membership, which is permutation
  invariant.
* Python `str.strip` / `str.lower` are modelled character-wise on the ASCII
  fragment (`pyStrip`, `pyLower` below).
* `hashlib.sha256(...).hexdigest()` is modelled by a full SHA-256
  implementation over `Nat` with explicit `% 2^32` truncation.
-/

/-! ## Python string helpers (ASCII model of `str.strip` and `str.lower`) -/

/-- Model of Python's whitespace test used by `str.strip()` (ASCII fragment:
space and the control characters tab, LF, VT, FF, CR, i.e. code points 9-13). -/
def isSpaceChar (c : Char) : Bool :=
  c.toNat == 32 || (decide (9 ≤ c.toNat) && decide (c.toNat ≤ 13))

/-- Model of Python's `str.lower` on a single character (ASCII fragment:
`A`-`Z` map to `a`-`z`, everything else is fixed). -/
def pyLowerChar (c : Char) : Char :=
  if 65 ≤ c.toNat ∧ c.toNat ≤ 90 then Char.ofNat (c.toNat + 32) else c

/-- `str.lower` on a character list. -/
def pyLowerL (l : List Char) : List Char := l.map pyLowerChar

/-- Leading-whitespace removal, the first half of `str.strip`. -/
def stripLead (l : List Char) : List Char := l.dropWhile isSpaceChar

/-- Trailing-whitespace removal, the second half of `str.strip`. -/
def stripTrail (l : List Char) : List Char := (stripLead l.reverse).reverse

/-- `str.strip` on a character list: drop leading and trailing whitespace. -/
def pyStripL (l : List Char) : List Char := stripTrail (stripLead l)

/-- Model of Python's `str.lower`. -/
def pyLower (s : String) : String := ⟨pyLowerL s.data⟩

/-- Model of Python's `str.strip`. -/
def pyStrip (s : String) : String := ⟨pyStripL s.data⟩

/-- The email normalisation applied by the app: `email.strip().lower()`
(`app.py` lines 233 and 262). -/
def normEmail (s : String) : String := pyLower (pyStrip s)

/-- A string consisting only of whitespace characters. -/
def isSpaceStr (s : String) : Bool := s.data.all isSpaceChar

/-! ## SHA-256 (model of `hashlib.sha256(...).hexdigest()`, FIPS 180-4)

`_hash_password` (`app.py` lines 23-25) hex-digests the UTF-8 encoding of the
password. All word arithmetic is over `Nat` with explicit truncation `% 2^32`. -/

/-- Truncation to a 32-bit word. -/
def w32 (n : Nat) : Nat := n % 4294967296

/-- 32-bit right rotation. -/
def rotr32 (x n : Nat) : Nat := w32 ((x >>> n) ||| (x <<< (32 - n)))

def bigSigma0 (x : Nat) : Nat := (rotr32 x 2) ^^^ (rotr32 x 13) ^^^ (rotr32 x 22)

def bigSigma1 (x : Nat) : Nat := (rotr32 x 6) ^^^ (rotr32 x 11) ^^^ (rotr32 x 25)

def smallSigma0 (x : Nat) : Nat := (rotr32 x 7) ^^^ (rotr32 x 18) ^^^ (x >>> 3)

def smallSigma1 (x : Nat) : Nat := (rotr32 x 17) ^^^ (rotr32 x 19) ^^^ (x >>> 10)

/-- SHA-256 choice function; `^^^ 4294967295` is 32-bit complement. -/
def chFn (x y z : Nat) : Nat := (x &&& y) ^^^ ((x ^^^ 4294967295) &&& z)

def majFn (x y z : Nat) : Nat := (x &&& y) ^^^ (x &&& z) ^^^ (y &&& z)

/-- The 64 SHA-256 round constants (FIPS 180-4, in decimal). -/
def sha256K : List Nat :=
  [1116352408, 1899447441, 3049323471, 3921009573, 961987163,
   1508970993, 2453635748, 2870763221, 3624381080, 310598401,
   607225278, 1426881987, 1925078388, 2162078206, 2614888103,
   3248222580, 3835390401, 4022224774, 264347078, 604807628,
   770255983, 1249150122, 1555081692, 1996064986, 2554220882,
   2821834349, 2952996808, 3210313671, 3336571891, 3584528711,
   113926993, 338241895, 666307205, 773529912, 1294757372,
   1396182291, 1695183700, 1986661051, 2177026350, 2456956037,
   2730485921, 2820302411, 3259730800, 3345764771, 3516065817,
   3600352804, 4094571909, 275423344, 430227734, 506948616,
   659060556, 883997877, 958139571, 1322822218, 1537002063,
   1747873779, 1955562222, 2024104815, 2227730452, 2361852424,
   2428436474, 2756734187, 3204031479, 3329325298]

/-- The initial SHA-256 hash value (FIPS 180-4, in decimal). -/
def sha256H0 : List Nat :=
  [1779033703, 3144134277, 1013904242, 2773480762,
   1359893119, 2600822924, 528734635, 1541459225]

/-- The eight working variables of the compression loop. -/
structure Sha256State where
  a : Nat
  b : Nat
  c : Nat
  d : Nat
  e : Nat
  f : Nat
  g : Nat
  h : Nat

/-- One round of the SHA-256 compression loop; `kw` is the pair of the round
constant and the schedule word. -/
def sha256Round (st : Sha256State) (kw : Nat × Nat) : Sha256State :=
  let t1 := w32 (st.h + bigSigma1 st.e + chFn st.e st.f st.g + kw.1 + kw.2)
  let t2 := w32 (bigSigma0 st.a + majFn st.a st.b st.c)
  ⟨w32 (t1 + t2), st.a, st.b, st.c, w32 (st.d + t1), st.e, st.f, st.g⟩

/-- Append the next message-schedule word. -/
def extendSchedule (w : List Nat) : List Nat :=
  w ++ [w32 (smallSigma1 (w.getD (w.length - 2) 0) + w.getD (w.length - 7) 0
      + smallSigma0 (w.getD (w.length - 15) 0) + w.getD (w.length - 16) 0)]

/-- Expand a 16-word block to the 64-word message schedule. -/
def messageSchedule (block : List Nat) : List Nat := extendSchedule^[48] block

/-- Compress one 16-word block into the running 8-word hash value. -/
def sha256Compress (hs : List Nat) (block : List Nat) : List Nat :=
  let w := messageSchedule block
  let st0 : Sha256State :=
    ⟨hs.getD 0 0, hs.getD 1 0, hs.getD 2 0, hs.getD 3 0,
     hs.getD 4 0, hs.getD 5 0, hs.getD 6 0, hs.getD 7 0⟩
  let fin := (sha256K.zip w).foldl sha256Round st0
  [w32 (hs.getD 0 0 + fin.a), w32 (hs.getD 1 0 + fin.b),
   w32 (hs.getD 2 0 + fin.c), w32 (hs.getD 3 0 + fin.d),
   w32 (hs.getD 4 0 + fin.e), w32 (hs.getD 5 0 + fin.f),
   w32 (hs.getD 6 0 + fin.g), w32 (hs.getD 7 0 + fin.h)]

/-- Big-endian 8-byte encoding (the 64-bit message length field). -/
def beBytes8 (n : Nat) : List Nat :=
  [(n >>> 56) % 256, (n >>> 48) % 256, (n >>> 40) % 256, (n >>> 32) % 256,
   (n >>> 24) % 256, (n >>> 16) % 256, (n >>> 8) % 256, n % 256]

/-- SHA-256 padding: `0x80`, zeros to 56 mod 64, then the bit length. -/
def sha256Pad (msg : List Nat) : List Nat :=
  let zeros := (64 - ((msg.length + 9) % 64)) % 64
  msg ++ [128] ++ List.replicate zeros 0 ++ beBytes8 (msg.length * 8)

/-- Pack big-endian bytes into 32-bit words. -/
def bytesToWords : List Nat → List Nat
  | b0 :: b1 :: b2 :: b3 :: rest =>
      ((b0 <<< 24) ||| (b1 <<< 16) ||| (b2 <<< 8) ||| b3) :: bytesToWords rest
  | _ => []

/-- Fold the compression function over the 16-word blocks of the message. -/
def sha256Process (hs : List Nat) (ws : List Nat) : List Nat :=
  if h : ws = [] then hs
  else sha256Process (sha256Compress hs (ws.take 16)) (ws.drop 16)
termination_by ws.length
decreasing_by
  simp only [List.length_drop]
  have := List.length_pos.mpr h
  omega

/-- Big-endian bytes of a 32-bit word. -/
def wordToBytes (n : Nat) : List Nat :=
  [(n >>> 24) % 256, (n >>> 16) % 256, (n >>> 8) % 256, n % 256]

/-- The SHA-256 digest (32 bytes) of a byte string. -/
def sha256Bytes (msg : List Nat) : List Nat :=
  (sha256Process sha256H0 (bytesToWords (sha256Pad msg))).foldr
    (fun wd acc => wordToBytes wd ++ acc) []

/-- Lower-case hex digit. -/
def hexChar (n : Nat) : Char :=
  if n < 10 then Char.ofNat (48 + n) else Char.ofNat (87 + n)

def byteToHex (b : Nat) : List Char := [hexChar (b / 16), hexChar (b % 16)]

/-- Lower-case hex string of a byte list, as produced by `hexdigest()`. -/
def toHexStr (bytes : List Nat) : String :=
  ⟨bytes.foldr (fun b acc => byteToHex b ++ acc) []⟩

/-- UTF-8 bytes of a string, as produced by `password.encode("utf-8")`. -/
def utf8Bytes (s : String) : List Nat := s.toUTF8.toList.map (fun b => b.toNat)

/-- `_hash_password` (`app.py` lines 23-25): return a SHA-256 hash of the
password, as a lower-case hex string. -/
def hash_password (password : String) : String :=
  toHexStr (sha256Bytes (utf8Bytes password))

/-! ## Data model

Row structures for the three tables created by `init_db` (`app.py` lines
38-84); `NOT NULL` columns are plain fields, nullable columns are `Option`. -/

/-- A row of the `users` table. -/
structure UserRow where
  id : Nat
  email : String
  display_name : Option String
  password_hash : String
  created_at : String
deriving DecidableEq

/-- A row of the `projects` table. -/
structure ProjectRow where
  id : Nat
  name : String
  description : String
  value_needed : ℚ
  interest_rate : ℚ
  image_path : Option String
  total_raised : ℚ
  created_at : String
deriving DecidableEq

/-- A row of the `investments` table. -/
structure InvestmentRow where
  id : Nat
  project_id : Nat
  investor_name : Option String
  investor_username : Option String
  amount : ℚ
  created_at : String
deriving DecidableEq

/-- The database state: three tables plus the `AUTOINCREMENT` counters. -/
structure DB where
  users : List UserRow
  projects : List ProjectRow
  investments : List InvestmentRow
  nextUserId : Nat
  nextProjectId : Nat
  nextInvestmentId : Nat
deriving DecidableEq

/-- The freshly initialised database (`init_db` on a new file): all tables
empty, sqlite `AUTOINCREMENT` starts at 1. -/
def initDB : DB := ⟨[], [], [], 1, 1, 1⟩

/-! ### Declared column constraints

The `CREATE TABLE` declarations of `init_db` transcribed as data, for the
schema-level claims. -/

/-- One column declaration of a `CREATE TABLE` statement. -/
structure ColumnSpec where
  colName : String
  sqlType : String
  notNull : Bool
  primaryKey : Bool
deriving DecidableEq

/-- Columns of `projects` (`app.py` lines 55-68). -/
def projectsColumns : List ColumnSpec :=
  [⟨"id", "INTEGER", false, true⟩,
   ⟨"name", "TEXT", true, false⟩,
   ⟨"description", "TEXT", true, false⟩,
   ⟨"value_needed", "REAL", true, false⟩,
   ⟨"interest_rate", "REAL", true, false⟩,
   ⟨"image_path", "TEXT", false, false⟩,
   ⟨"total_raised", "REAL", true, false⟩,
   ⟨"created_at", "TEXT", true, false⟩]

/-- Columns of `investments` (`app.py` lines 70-82). -/
def investmentsColumns : List ColumnSpec :=
  [⟨"id", "INTEGER", false, true⟩,
   ⟨"project_id", "INTEGER", true, false⟩,
   ⟨"investor_name", "TEXT", false, false⟩,
   ⟨"investor_username", "TEXT", false, false⟩,
   ⟨"amount", "REAL", true, false⟩,
   ⟨"created_at", "TEXT", true, false⟩]

/-- The `FOREIGN KEY (project_id) REFERENCES projects(id)` clause of
`investments` (`app.py` line 79): (column, referenced table, referenced
column). -/
def investmentsForeignKey : String × String × String := ("project_id", "projects", "id")

/-- Look up a declared column by name. -/
def lookupCol (cols : List ColumnSpec) (nm : String) : Option ColumnSpec :=
  cols.find? (fun c => c.colName == nm)

/-! ## Database helper functions (`app.py` lines 87-197) -/

/-- `get_user_by_email`: `SELECT * FROM users WHERE email = ?`, `fetchone()`
returns the first matching row or `None`. -/
def get_user_by_email (db : DB) (email : String) : Option UserRow :=
  db.users.find? (fun u => u.email == email)

/-- `create_user`: insert a users row; the `UNIQUE` constraint on `email`
raises `sqlite3.IntegrityError` when the email is already present. -/
def create_user (db : DB) (email : String) (password_plain : String)
    (display_name : Option String) (now : String) : Except String DB :=
  if db.users.any (fun u => u.email == email) then
    Except.error "IntegrityError"
  else
    Except.ok { db with
      users := db.users ++
        [⟨db.nextUserId, email, display_name, hash_password password_plain, now⟩],
      nextUserId := db.nextUserId + 1 }

/-- `create_project`: insert a projects row with `total_raised = 0`. -/
def create_project (db : DB) (name description : String)
    (value_needed interest_rate : ℚ) (image_path : Option String) (now : String) : DB :=
  { db with
    projects := db.projects ++
      [⟨db.nextProjectId, name, description, value_needed, interest_rate,
        image_path, 0, now⟩],
    nextProjectId := db.nextProjectId + 1 }

/-- `list_projects`: all projects rows (the `ORDER BY created_at DESC` only
permutes the display order and is abstracted away). -/
def list_projects (db : DB) : List ProjectRow := db.projects

/-- `get_project`: `SELECT * FROM projects WHERE id = ?`, `fetchone()`. -/
def get_project (db : DB) (project_id : Nat) : Option ProjectRow :=
  db.projects.find? (fun p => p.id == project_id)

/-- `add_investment`: insert an investments row, then
`UPDATE projects SET total_raised = total_raised + ? WHERE id = ?`. -/
def add_investment (db : DB) (project_id : Nat) (amount : ℚ)
    (investor_name investor_username : Option String) (now : String) : DB :=
  { db with
    investments := db.investments ++
      [⟨db.nextInvestmentId, project_id, investor_name, investor_username,
        amount, now⟩],
    projects := db.projects.map (fun p =>
      if p.id == project_id then { p with total_raised := p.total_raised + amount } else p),
    nextInvestmentId := db.nextInvestmentId + 1 }

/-- `add_investment` with the Python default arguments
`investor_name=None, investor_username=None`. -/
def add_investment_default (db : DB) (project_id : Nat) (amount : ℚ) (now : String) : DB :=
  add_investment db project_id amount none none now

/-- `list_investments_for_project`: the investments rows of one project
(ordering abstracted away). -/
def list_investments_for_project (db : DB) (project_id : Nat) : List InvestmentRow :=
  db.investments.filter (fun i => i.project_id == project_id)

/-! ## Authentication (`login_or_register`, `app.py` lines 203-276) -/

/-- The `st.session_state.auth` record. -/
structure AuthState where
  logged_in : Bool
  username : Option String
  name : Option String
deriving DecidableEq

/-- The logged-out session (`app.py` lines 208-213). -/
def loggedOutAuth : AuthState := ⟨false, none, none⟩

/-- `hmac.compare_digest` on hex strings: constant-time in Python,
value-wise plain string equality. -/
def compare_digest (a b : String) : Bool := a == b

/-- Python `user["display_name"] or user["email"]` (`app.py` line 240):
fall back to the email when `display_name` is `None` or empty. -/
def displayNameOf (user : UserRow) : String :=
  match user.display_name with
  | none => user.email
  | some d => if d = "" then user.email else d

/-- The login tab on submit (`app.py` lines 232-249): look up the normalised
email, compare the SHA-256 digest of the submitted password with the stored
hash; on success fill the session, otherwise show
"Incorrect email or password." and leave the session unchanged. Returns the
new session and the error message, if any. -/
def loginSubmit (db : DB) (auth : AuthState) (email_login password_login : String) :
    AuthState × Option String :=
  match get_user_by_email db (pyLower (pyStrip email_login)) with
  | none => (auth, some "Incorrect email or password.")
  | some user =>
      if compare_digest user.password_hash (hash_password password_login) then
        (⟨true, some user.email, some (displayNameOf user)⟩, none)
      else
        (auth, some "Incorrect email or password.")

/-- Python `name_reg.strip() or None` (`app.py` line 271). -/
def stripOrNone (s : String) : Option String :=
  if pyStrip s = "" then none else some (pyStrip s)

/-- The register tab on submit (`app.py` lines 261-274). Returns the new
database and the error message, if any. -/
def registerSubmit (db : DB) (email_reg name_reg password_reg password_confirm : String)
    (now : String) : DB × Option String :=
  let e := pyLower (pyStrip email_reg)
  if e = "" ∨ password_reg = "" then
    (db, some "Email and password are required.")
  else if ¬ e.data.contains '@' then
    (db, some "Please enter a valid email.")
  else if password_reg ≠ password_confirm then
    (db, some "Passwords do not match.")
  else
    match create_user db e password_reg (stripOrNone name_reg) now with
    | Except.error _ => (db, some "This email is already registered. Try logging in instead.")
    | Except.ok db2 => (db2, none)

/-! ## Project submission page (`page_submit_project`, `app.py` lines 292-333) -/

/-- The submission form on click (`app.py` lines 318-333): reject when the
name or description is empty or the needed amount is not positive, otherwise
create the project. The uploaded image is saved to disk before the insert;
its stored path is the `image_path` argument. Returns the new database and
the error message, if any. -/
def page_submit_project (db : DB) (name description : String)
    (value_needed interest_rate : ℚ) (image_path : Option String) (now : String) :
    DB × Option String :=
  if name = "" ∨ description = "" ∨ value_needed ≤ 0 then
    (db, some "Please fill in the name, description and a positive amount needed.")
  else
    (create_project db name description value_needed interest_rate image_path now, none)

/-! ## Invest page (`page_invest`, `app.py` lines 339-443) -/

/-- The remaining amount as computed and displayed by the invest and overview
pages (`app.py` lines 357, 385, 458):
`remaining = max(value_needed - total_raised, 0)`. -/
def remainingFor (p : ProjectRow) : ℚ := max (p.value_needed - p.total_raised) 0

/-- Division exactly as evaluated by Python: `none` models a
`ZeroDivisionError`. -/
def checkedDiv (x y : ℚ) : Option ℚ := if y = 0 then none else some (x / y)

/-- The progress bar value of a project as rendered by the invest and
overview pages (`app.py` lines 371-374, 397-400, 469-472): only under
`value_needed > 0` is `total_raised / value_needed` evaluated and clamped to
`[0, 1]`. The outer `Option` is absence of a runtime error, the inner
`Option` is whether a progress bar is rendered at all. -/
def renderProgress (p : ProjectRow) : Option (Option ℚ) :=
  if p.value_needed > 0 then
    (checkedDiv p.total_raised p.value_needed).map
      (fun pr => some (min (max pr 0) 1))
  else
    some none

/-- The "Invest now" button on click (`app.py` lines 419-432), for the
selected project: reject a non-positive amount, reject an amount above the
remaining amount, otherwise record the investment attributed to the logged-in
user. When no project row matches the selected id the form is not rendered
and nothing happens. Returns the new database and the error message, if
any. -/
def investClick (db : DB) (project_id : Nat) (invest_amount : ℚ)
    (current_name current_username : String) (now : String) : DB × Option String :=
  match get_project db project_id with
  | none => (db, none)
  | some project =>
      if invest_amount ≤ 0 then
        (db, some "Please enter a positive amount.")
      else if invest_amount > remainingFor project then
        (db, some "Amount exceeds the remaining amount needed for this project.")
      else
        (add_investment db project.id invest_amount
          (some current_name) (some current_username) now, none)

/-! ## Raw operation traces

Sequences of direct `create_project` / `add_investment` calls, for the
per-project totals invariant. -/

/-- A direct database write: one `create_project` or `add_investment` call. -/
inductive DbOp where
  | createProj (name description : String) (value_needed interest_rate : ℚ)
      (image_path : Option String) (now : String)
  | addInv (project_id : Nat) (amount : ℚ)
      (investor_name investor_username : Option String) (now : String)
deriving DecidableEq

def applyDbOp (db : DB) : DbOp → DB
  | DbOp.createProj n d v r img now => create_project db n d v r img now
  | DbOp.addInv pid amt inm iun now => add_investment db pid amt inm iun now

def runDbOps (ops : List DbOp) : DB := ops.foldl applyDbOp initDB

/-- A trace is valid when every `add_investment` call targets the id of a
project row that exists at the time of the call — which is how the invest
page calls it (`app.py` lines 382-430: the form is only rendered for a
fetched project). -/
def validDbOps (db : DB) : List DbOp → Bool
  | [] => true
  | op :: rest =>
      (match op with
       | DbOp.createProj .. => true
       | DbOp.addInv pid .. => (get_project db pid).isSome) && validDbOps (applyDbOp db op) rest

/-- The sum of the amounts of the investment rows of one project. -/
def raisedSum (invs : List InvestmentRow) (pid : Nat) : ℚ :=
  ((invs.filter (fun i => i.project_id == pid)).map (fun i => i.amount)).sum

/-- Every project row's `total_raised` column equals the sum of the amounts
of the investment rows whose `project_id` is that project's id. -/
def totalsMatch (db : DB) : Prop :=
  ∀ p ∈ db.projects, p.total_raised = raisedSum db.investments p.id

/-- Inductive invariant for raw traces: project ids are below the
`AUTOINCREMENT` counter, every investment row references an existing project
row, and the totals match. -/
def dbInv (db : DB) : Prop :=
  (∀ p ∈ db.projects, p.id < db.nextProjectId)
  ∧ (∀ i ∈ db.investments, ∃ p ∈ db.projects, p.id = i.project_id)
  ∧ totalsMatch db

/-! ## App-level traces

Sequences of user interactions as the pages perform them, for the
reachable-state claims. -/

/-- One user interaction: a project-form submission or an invest click. -/
inductive AppOp where
  | submit (name description : String) (value_needed interest_rate : ℚ)
      (image_path : Option String) (now : String)
  | invest (project_id : Nat) (invest_amount : ℚ)
      (current_name current_username : String) (now : String)
deriving DecidableEq

def applyAppOp (db : DB) : AppOp → DB
  | AppOp.submit n d v r img now => (page_submit_project db n d v r img now).1
  | AppOp.invest pid amt cn cu now => (investClick db pid amt cn cu now).1

/-- The database reached from a fresh install by a sequence of user
interactions. -/
def runApp (ops : List AppOp) : DB := ops.foldl applyAppOp initDB

/-- Bounds the app maintains for every project row. -/
def projBounds (p : ProjectRow) : Prop :=
  0 < p.value_needed ∧ 0 ≤ p.total_raised ∧ p.total_raised ≤ p.value_needed

/-- Inductive invariant for app-level traces: fresh ids, distinct ids, and
per-project bounds. -/
def appInv (db : DB) : Prop :=
  (∀ p ∈ db.projects, p.id < db.nextProjectId)
  ∧ (db.projects.map (fun p => p.id)).Nodup
  ∧ (∀ p ∈ db.projects, projBounds p)

/-! ## Supporting lemmas -/

theorem toNat_pyLowerChar_of_upper {c : Char} (h1 : 65 ≤ c.toNat) (h2 : c.toNat ≤ 90) :
    (pyLowerChar c).toNat = c.toNat + 32 := by
  have hv : (c.toNat + 32).isValidChar := Or.inl (by omega)
  rw [pyLowerChar, if_pos ⟨h1, h2⟩, Char.ofNat, dif_pos hv]
  rfl

theorem isSpaceChar_pyLowerChar (c : Char) : isSpaceChar (pyLowerChar c) = isSpaceChar c := by
  by_cases h : 65 ≤ c.toNat ∧ c.toNat ≤ 90
  · have ht : (pyLowerChar c).toNat = c.toNat + 32 := toNat_pyLowerChar_of_upper h.1 h.2
    have h1 := h.1
    have hfalse : ∀ n : Nat, 65 ≤ n →
        ((n == 32) || (decide (9 ≤ n) && decide (n ≤ 13))) = false := by
      intro n hn
      simp only [Bool.or_eq_false_iff, beq_eq_false_iff_ne, ne_eq,
        Bool.and_eq_false_iff, decide_eq_false_iff_not]
      omega
    unfold isSpaceChar
    rw [ht, hfalse _ (by omega), hfalse _ (by omega)]
  · rw [pyLowerChar, if_neg h]

theorem pyLowerChar_pyLowerChar (c : Char) : pyLowerChar (pyLowerChar c) = pyLowerChar c := by
  by_cases h : 65 ≤ c.toNat ∧ c.toNat ≤ 90
  · have ht : (pyLowerChar c).toNat = c.toNat + 32 := toNat_pyLowerChar_of_upper h.1 h.2
    have hno : ¬ (65 ≤ (pyLowerChar c).toNat ∧ (pyLowerChar c).toNat ≤ 90) := by
      rw [ht]; omega
    conv_lhs => rw [pyLowerChar]
    rw [if_neg hno]
  · have hc : pyLowerChar c = c := by rw [pyLowerChar, if_neg h]
    rw [hc, hc]

theorem stripLead_append_space {w : List Char} (l : List Char) (hw : w.all isSpaceChar = true) :
    stripLead (w ++ l) = stripLead l :=
  List.dropWhile_append_of_pos (List.all_eq_true.mp hw)

theorem stripTrail_append_space (l : List Char) {w : List Char} (hw : w.all isSpaceChar = true) :
    stripTrail (l ++ w) = stripTrail l := by
  have hw2 : ∀ a ∈ w.reverse, isSpaceChar a := by
    intro a ha
    exact List.all_eq_true.mp hw a (List.mem_reverse.mp ha)
  unfold stripTrail stripLead
  rw [List.reverse_append, List.dropWhile_append_of_pos hw2]

theorem stripTrail_prefix (l : List Char) : stripTrail l <+: l :=
  List.rdropWhile_prefix isSpaceChar l

theorem stripLead_stripTrail_stripLead (l : List Char) :
    stripLead (stripTrail (stripLead l)) = stripTrail (stripLead l) := by
  rw [stripLead, List.dropWhile_eq_self_iff]
  intro hl
  have hpref : stripTrail (stripLead l) <+: stripLead l := stripTrail_prefix (stripLead l)
  have hlen : 0 < (stripLead l).length := lt_of_lt_of_le hl hpref.length_le
  have hget : (stripTrail (stripLead l)).get ⟨0, hl⟩ = (stripLead l).get ⟨0, hlen⟩ := by
    simp only [List.get_eq_getElem]
    exact hpref.getElem hl
  rw [hget]
  exact List.dropWhile_get_zero_not isSpaceChar l hlen

theorem pyStripL_idem (l : List Char) : pyStripL (pyStripL l) = pyStripL l := by
  show stripTrail (stripLead (stripTrail (stripLead l))) = stripTrail (stripLead l)
  rw [stripLead_stripTrail_stripLead]
  exact List.rdropWhile_idempotent isSpaceChar (stripLead l)

theorem stripLead_map_lower (l : List Char) :
    stripLead (pyLowerL l) = pyLowerL (stripLead l) := by
  have hp : (isSpaceChar ∘ pyLowerChar) = isSpaceChar := funext isSpaceChar_pyLowerChar
  unfold stripLead pyLowerL
  rw [List.dropWhile_map, hp]

theorem stripTrail_map_lower (l : List Char) :
    stripTrail (pyLowerL l) = pyLowerL (stripTrail l) := by
  have hp : (isSpaceChar ∘ pyLowerChar) = isSpaceChar := funext isSpaceChar_pyLowerChar
  unfold stripTrail stripLead pyLowerL
  rw [← List.map_reverse, List.dropWhile_map, hp, ← List.map_reverse]

theorem pyStripL_map_lower (l : List Char) :
    pyStripL (pyLowerL l) = pyLowerL (pyStripL l) := by
  show stripTrail (stripLead (pyLowerL l)) = pyLowerL (stripTrail (stripLead l))
  rw [stripLead_map_lower, stripTrail_map_lower]

theorem pyLowerL_idem (l : List Char) : pyLowerL (pyLowerL l) = pyLowerL l := by
  unfold pyLowerL
  rw [List.map_map]
  congr 1
  funext c
  exact pyLowerChar_pyLowerChar c

theorem pyStripL_pad (w₁ w₂ l : List Char) (h1 : w₁.all isSpaceChar = true)
    (h2 : w₂.all isSpaceChar = true) :
    pyStripL (w₁ ++ l ++ w₂) = pyStripL l := by
  show stripTrail (stripLead (w₁ ++ l ++ w₂)) = stripTrail (stripLead l)
  rw [List.append_assoc, stripLead_append_space (l ++ w₂) h1, stripLead,
    List.dropWhile_append]
  by_cases hcase : (l.dropWhile isSpaceChar).isEmpty
  · rw [if_pos hcase]
    have hl : l.dropWhile isSpaceChar = [] := by
      rwa [List.isEmpty_iff] at hcase
    have hw : w₂.dropWhile isSpaceChar = [] :=
      List.dropWhile_eq_nil_iff.mpr (List.all_eq_true.mp h2)
    rw [hw]
    show stripTrail [] = stripTrail (stripLead l)
    rw [stripLead, hl]
  · rw [if_neg hcase]
    exact stripTrail_append_space (l.dropWhile isSpaceChar) h2

theorem normEmail_idem (s : String) : normEmail (normEmail s) = normEmail s := by
  show (⟨pyLowerL (pyStripL (pyLowerL (pyStripL s.data)))⟩ : String)
      = ⟨pyLowerL (pyStripL s.data)⟩
  congr 1
  rw [pyStripL_map_lower, pyLowerL_idem, pyStripL_idem]

theorem normEmail_pad_case (w₁ w₂ e e' : String) (h1 : isSpaceStr w₁ = true)
    (h2 : isSpaceStr w₂ = true) (h3 : pyLower e' = pyLower e) :
    normEmail (w₁ ++ e' ++ w₂) = normEmail e := by
  have h3d : pyLowerL e'.data = pyLowerL e.data := congrArg String.data h3
  show (⟨pyLowerL (pyStripL (w₁ ++ e' ++ w₂).data)⟩ : String)
      = ⟨pyLowerL (pyStripL e.data)⟩
  congr 1
  have hdata : (w₁ ++ e' ++ w₂).data = w₁.data ++ e'.data ++ w₂.data := by
    rw [String.data_append, String.data_append]
  rw [hdata, pyStripL_pad _ _ _ h1 h2, ← pyStripL_map_lower, h3d, pyStripL_map_lower]

theorem raisedSum_append_single (invs : List InvestmentRow) (row : InvestmentRow) (pid : Nat) :
    raisedSum (invs ++ [row]) pid
      = raisedSum invs pid + (if row.project_id = pid then row.amount else 0) := by
  by_cases h : row.project_id = pid
  · simp [raisedSum, List.filter_append, h]
  · simp [raisedSum, List.filter_append, h]

theorem dbInv_initDB : dbInv initDB := by
  refine ⟨?_, ?_, ?_⟩ <;> simp [initDB, totalsMatch]

theorem dbInv_create (db : DB) (n d : String) (v r : ℚ) (img : Option String) (now : String)
    (hinv : dbInv db) : dbInv (create_project db n d v r img now) := by
  obtain ⟨h1, h2, h3⟩ := hinv
  refine ⟨?_, ?_, ?_⟩
  · intro p hp
    rcases List.mem_append.mp hp with hp | hp
    · exact Nat.lt_succ_of_lt (h1 p hp)
    · rcases List.mem_singleton.mp hp with rfl
      exact Nat.lt_succ_self _
  · intro i hi
    obtain ⟨p, hp, hpi⟩ := h2 i hi
    exact ⟨p, List.mem_append_left _ hp, hpi⟩
  · intro p hp
    rcases List.mem_append.mp hp with hp | hp
    · exact h3 p hp
    · rcases List.mem_singleton.mp hp with rfl
      show (0 : ℚ) = raisedSum db.investments db.nextProjectId
      have hfil : db.investments.filter (fun i => i.project_id == db.nextProjectId) = [] := by
        rw [List.filter_eq_nil_iff]
        intro i hi hmatch
        obtain ⟨p', hp', hpi⟩ := h2 i hi
        have hlt := h1 p' hp'
        have heq : i.project_id = db.nextProjectId := by
          rwa [Nat.beq_eq_true_eq] at hmatch
        omega
      rw [raisedSum, hfil]
      rfl

theorem dbInv_addInv (db : DB) (pid : Nat) (amt : ℚ) (inm iun : Option String) (now : String)
    (hinv : dbInv db) (hex : (get_project db pid).isSome = true) :
    dbInv (add_investment db pid amt inm iun now) := by
  obtain ⟨h1, h2, h3⟩ := hinv
  obtain ⟨p0, hfind⟩ := Option.isSome_iff_exists.mp hex
  have hp0mem : p0 ∈ db.projects := List.mem_of_find?_eq_some hfind
  have hp0id : p0.id = pid := by
    have := List.find?_some hfind
    rwa [Nat.beq_eq_true_eq] at this
  refine ⟨?_, ?_, ?_⟩
  · intro p hp
    obtain ⟨q, hq, rfl⟩ := List.mem_map.mp hp
    by_cases hcase : q.id == pid <;> simp only [hcase, if_pos, if_neg, Bool.false_eq_true,
      ite_true, ite_false] <;> exact h1 q hq
  · intro i hi
    rcases List.mem_append.mp hi with hi | hi
    · obtain ⟨p, hp, hpi⟩ := h2 i hi
      refine ⟨_, List.mem_map.mpr ⟨p, hp, rfl⟩, ?_⟩
      split <;> simp [hpi]
    · rcases List.mem_singleton.mp hi with rfl
      refine ⟨{ p0 with total_raised := p0.total_raised + amt }, ?_, ?_⟩
      · refine List.mem_map.mpr ⟨p0, hp0mem, ?_⟩
        simp [hp0id]
      · simpa using hp0id
  · intro p hp
    obtain ⟨q, hq, rfl⟩ := List.mem_map.mp hp
    have hqsum := h3 q hq
    have hinvs : (add_investment db pid amt inm iun now).investments
        = db.investments ++ [⟨db.nextInvestmentId, pid, inm, iun, amt, now⟩] := rfl
    by_cases hcase : q.id = pid
    · have hbeq : (q.id == pid) = true := by rwa [Nat.beq_eq_true_eq]
      rw [if_pos hbeq]
      show q.total_raised + amt
          = raisedSum (add_investment db pid amt inm iun now).investments q.id
      rw [hinvs, raisedSum_append_single, hqsum, hcase]
      simp
    · have hbeq : (q.id == pid) = false := by
        rw [beq_eq_false_iff_ne]
        exact hcase
      rw [if_neg (by simp [hbeq])]
      rw [hinvs, raisedSum_append_single, hqsum]
      have hne : ¬ (pid = q.id) := fun hh => hcase hh.symm
      simp [hne]

theorem dbInv_foldl (ops : List DbOp) : ∀ db : DB, dbInv db → validDbOps db ops = true →
    dbInv (ops.foldl applyDbOp db) := by
  induction ops with
  | nil => intro db h _; exact h
  | cons op rest ih =>
      intro db h hv
      cases op with
      | createProj n d v r img now =>
          simp only [validDbOps, Bool.true_and] at hv
          exact ih _ (dbInv_create db n d v r img now h) hv
      | addInv pid amt inm iun now =>
          simp only [validDbOps, Bool.and_eq_true] at hv
          exact ih _ (dbInv_addInv db pid amt inm iun now h hv.1) hv.2

theorem appInv_initDB : appInv initDB := by
  refine ⟨?_, ?_, ?_⟩ <;> simp [initDB]

theorem appInv_submit (db : DB) (n d : String) (v r : ℚ) (img : Option String) (now : String)
    (h : appInv db) : appInv ((page_submit_project db n d v r img now).1) := by
  obtain ⟨h1, h2, h3⟩ := h
  unfold page_submit_project
  split
  · exact ⟨h1, h2, h3⟩
  · rename_i hcond
    push_neg at hcond
    show appInv (create_project db n d v r img now)
    refine ⟨?_, ?_, ?_⟩
    · intro p hp
      rcases List.mem_append.mp hp with hp | hp
      · exact Nat.lt_succ_of_lt (h1 p hp)
      · rcases List.mem_singleton.mp hp with rfl
        exact Nat.lt_succ_self _
    · show ((db.projects
          ++ [(⟨db.nextProjectId, n, d, v, r, img, 0, now⟩ : ProjectRow)]).map
            (fun p => p.id)).Nodup
      rw [List.map_append, List.nodup_append]
      refine ⟨h2, List.nodup_singleton _, ?_⟩
      intro x hx hx2
      obtain ⟨p, hp, rfl⟩ := List.mem_map.mp hx
      have hlt := h1 p hp
      have heq : p.id = db.nextProjectId := by
        have h4 := List.mem_singleton.mp hx2
        simpa using h4
      omega
    · intro p hp
      rcases List.mem_append.mp hp with hp | hp
      · exact h3 p hp
      · rcases List.mem_singleton.mp hp with rfl
        exact ⟨hcond.2.2, le_refl _, le_of_lt hcond.2.2⟩

theorem appInv_invest (db : DB) (pid : Nat) (amt : ℚ) (cn cu : String) (now : String)
    (h : appInv db) : appInv ((investClick db pid amt cn cu now).1) := by
  obtain ⟨h1, h2, h3⟩ := h
  unfold investClick
  cases hfind : get_project db pid with
  | none => exact ⟨h1, h2, h3⟩
  | some project =>
      have hmem : project ∈ db.projects := List.mem_of_find?_eq_some hfind
      simp only
      split
      · exact ⟨h1, h2, h3⟩
      · split
        · exact ⟨h1, h2, h3⟩
        · rename_i hpos hle
          push_neg at hpos hle
          have hbounds := h3 project hmem
          have hids : ((add_investment db project.id amt (some cn) (some cu) now).projects.map
              (fun p => p.id)) = db.projects.map (fun p => p.id) := by
            show ((db.projects.map _).map _) = _
            rw [List.map_map]
            congr 1
            funext q
            show (if q.id == project.id then
                { q with total_raised := q.total_raised + amt } else q).id = q.id
            split <;> rfl
          refine ⟨?_, ?_, ?_⟩
          · intro p hp
            obtain ⟨q, hq, rfl⟩ := List.mem_map.mp hp
            have hlt := h1 q hq
            split <;> exact hlt
          · rw [hids]
            exact h2
          · intro p hp
            obtain ⟨q, hq, rfl⟩ := List.mem_map.mp hp
            have hqb := h3 q hq
            split
            · rename_i hqid
              have hqid2 : q.id = project.id := by rwa [Nat.beq_eq_true_eq] at hqid
              have hqeq : q = project :=
                List.inj_on_of_nodup_map h2 hq hmem hqid2
              subst hqeq
              have hrem : remainingFor q = q.value_needed - q.total_raised := by
                rw [remainingFor, max_eq_left (sub_nonneg.mpr hqb.2.2)]
              rw [hrem] at hle
              refine ⟨hqb.1, ?_, ?_⟩
              · show (0:ℚ) ≤ q.total_raised + amt
                have := hqb.2.1
                linarith
              · show q.total_raised + amt ≤ q.value_needed
                linarith
            · exact hqb

theorem appInv_runApp (ops : List AppOp) : appInv (runApp ops) := by
  have hgen : ∀ db : DB, appInv db → appInv (ops.foldl applyAppOp db) := by
    induction ops with
    | nil => intro db h; exact h
    | cons op rest ih =>
        intro db h
        cases op with
        | submit n d v r img now => exact ih _ (appInv_submit db n d v r img now h)
        | invest pid amt cn cu now => exact ih _ (appInv_invest db pid amt cn cu now h)
  exact hgen initDB appInv_initDB

/-! ## Claim theorems -/

/-- C8: every project is a row carrying a target amount, a raised-so-far
total and an interest rate: the `projects` table declares `value_needed`,
`interest_rate` and `total_raised` as NOT NULL columns, and `create_project`
stores the given `value_needed` and `interest_rate` with `total_raised`
initialised to 0. -/
theorem crowdfund_project_row_fields (db : DB) (n d : String) (v r : ℚ)
    (img : Option String) (now : String) :
    ((lookupCol projectsColumns "value_needed").map (fun c => c.notNull) = some true
      ∧ (lookupCol projectsColumns "interest_rate").map (fun c => c.notNull) = some true
      ∧ (lookupCol projectsColumns "total_raised").map (fun c => c.notNull) = some true)
    ∧ (create_project db n d v r img now).projects
        = db.projects ++ [⟨db.nextProjectId, n, d, v, r, img, 0, now⟩] :=
  ⟨⟨rfl, rfl, rfl⟩, rfl⟩

/-- C9: every investment is a single contribution row linked to one project
via a NOT NULL `project_id` foreign key, with an amount and optional
attribution: `investor_name` and `investor_username` are nullable and default
to `None` in `add_investment`, so an investment row may carry no named or
authenticated investor. -/
theorem crowdfund_investment_row_fields (db : DB) (pid : Nat) (amt : ℚ) (now : String) :
    ((lookupCol investmentsColumns "project_id").map (fun c => c.notNull) = some true
      ∧ investmentsForeignKey = ("project_id", "projects", "id")
      ∧ (lookupCol investmentsColumns "investor_name").map (fun c => c.notNull) = some false
      ∧ (lookupCol investmentsColumns "investor_username").map (fun c => c.notNull)
          = some false)
    ∧ (add_investment_default db pid amt now).investments
        = db.investments ++ [⟨db.nextInvestmentId, pid, none, none, amt, now⟩] :=
  ⟨⟨rfl, rfl, rfl, rfl⟩, rfl⟩

/-- C10: the progress-ratio division is always guarded: on every page the
division `total_raised / value_needed` is evaluated only under
`value_needed > 0`, so the progress computation never divides by zero for
any project row, including rows with `value_needed = 0`. -/
theorem crowdfund_progress_div_guarded (p : ProjectRow) :
    (renderProgress p).isSome = true := by
  unfold renderProgress
  split
  · rename_i hv
    rw [checkedDiv, if_neg (ne_of_gt hv)]
    rfl
  · rfl

/-- C4: for every project with `value_needed > 0`, the progress ratio shown
by the invest and overview pages equals
`min(max(total_raised / value_needed, 0), 1)`, and this value lies in
`[0, 1]`. -/
theorem crowdfund_progress_clamped (p : ProjectRow) (h : 0 < p.value_needed) :
    renderProgress p
        = some (some (min (max (p.total_raised / p.value_needed) 0) 1))
    ∧ 0 ≤ min (max (p.total_raised / p.value_needed) 0) 1
    ∧ min (max (p.total_raised / p.value_needed) 0) 1 ≤ 1 := by
  refine ⟨?_, ?_, ?_⟩
  · unfold renderProgress
    rw [if_pos h, checkedDiv, if_neg (ne_of_gt h)]
    rfl
  · exact le_min (le_max_right _ _) zero_le_one
  · exact min_le_right _ _

theorem crowdfund_progress_clamped_witness :
    (0:ℚ) < (⟨1, "solar", "roof", 2, 5, none, 1, "t"⟩ : ProjectRow).value_needed
    ∧ (renderProgress ⟨1, "solar", "roof", 2, 5, none, 1, "t"⟩
          = some (some (min (max ((1:ℚ) / 2) 0) 1))
        ∧ 0 ≤ min (max ((1:ℚ) / 2) 0) 1
        ∧ min (max ((1:ℚ) / 2) 0) 1 ≤ 1) :=
  ⟨by decide,
   crowdfund_progress_clamped ⟨1, "solar", "roof", 2, 5, none, 1, "t"⟩ (by decide)⟩

/-- C5: project submission performs basic input validation: a submission is
rejected with an error and no project row is created whenever the name is
empty, the description is empty, or `value_needed <= 0`; when the name and
description are non-empty and `value_needed` is positive the project is
created. -/
theorem crowdfund_submit_validation (db : DB) (n d : String) (v r : ℚ)
    (img : Option String) (now : String) :
    ((n = "" ∨ d = "" ∨ v ≤ 0) →
      page_submit_project db n d v r img now
        = (db, some "Please fill in the name, description and a positive amount needed."))
    ∧ (n ≠ "" → d ≠ "" → 0 < v →
      page_submit_project db n d v r img now
        = (create_project db n d v r img now, none)) := by
  constructor
  · intro hcond
    rw [page_submit_project, if_pos hcond]
  · intro h1 h2 h3
    have hcond : ¬ (n = "" ∨ d = "" ∨ v ≤ 0) := by
      push_neg
      exact ⟨h1, h2, h3⟩
    rw [page_submit_project, if_neg hcond]

theorem crowdfund_submit_validation_witness :
    (page_submit_project initDB "" "roof" 5 2 none "t"
        = (initDB, some "Please fill in the name, description and a positive amount needed."))
    ∧ (page_submit_project initDB "solar" "roof" 5 2 none "t"
        = (create_project initDB "solar" "roof" 5 2 none "t", none)) :=
  ⟨(crowdfund_submit_validation initDB "" "roof" 5 2 none "t").1 (Or.inl rfl),
   (crowdfund_submit_validation initDB "solar" "roof" 5 2 none "t").2
     (by decide) (by decide) (by decide)⟩

/-- C1: for every project in every state the app can reach, the remaining
amount computed and displayed by the invest and overview pages,
`max(value_needed - total_raised, 0)`, equals `value_needed - total_raised`:
the app only creates projects with a positive target and only accepts
investments up to the remaining amount, so `total_raised` never exceeds
`value_needed` and the truncation is the identity. -/
theorem crowdfund_remaining_eq_needed_sub_raised (ops : List AppOp) :
    ∀ p ∈ list_projects (runApp ops),
      remainingFor p = p.value_needed - p.total_raised := by
  intro p hp
  have hb := (appInv_runApp ops).2.2 p hp
  rw [remainingFor, max_eq_left (sub_nonneg.mpr hb.2.2)]

theorem crowdfund_remaining_witness :
    ((⟨1, "solar", "roof", 5, 2, none, 0, "t1"⟩ : ProjectRow)
        ∈ list_projects (runApp [AppOp.submit "solar" "roof" 5 2 none "t1"]))
    ∧ remainingFor ⟨1, "solar", "roof", 5, 2, none, 0, "t1"⟩
        = (⟨1, "solar", "roof", 5, 2, none, 0, "t1"⟩ : ProjectRow).value_needed
          - (⟨1, "solar", "roof", 5, 2, none, 0, "t1"⟩ : ProjectRow).total_raised :=
  ⟨by decide,
   crowdfund_remaining_eq_needed_sub_raised [AppOp.submit "solar" "roof" 5 2 none "t1"]
     ⟨1, "solar", "roof", 5, 2, none, 0, "t1"⟩ (by decide)⟩

/-- C2 as stated is false: `add_investment` does not check that the target
project exists (sqlite does not enforce the foreign key by default), so a
sequence may invest in a not-yet-existing project id; a project created
afterwards receives that id from the `AUTOINCREMENT` counter and starts at
`total_raised = 0` while its investment rows already sum to 5. -/
theorem crowdfund_totals_as_stated_cex :
    ¬ totalsMatch (runDbOps
      [DbOp.addInv 1 5 none none "t1",
       DbOp.createProj "solar" "roof" 10 2 none "t2"]) := by
  intro h
  have h2 := h ⟨1, "solar", "roof", 10, 2, none, 0, "t2"⟩ (List.mem_singleton.mpr rfl)
  simp [raisedSum, runDbOps, applyDbOp, add_investment, create_project, initDB] at h2

/-- C2 (amended): for every project created via `create_project` and every
sequence of `add_investment` calls in which each call targets the id of an
already-existing project row — as the invest page guarantees — the project's
`total_raised` column always equals the sum of the amounts of the investment
rows whose `project_id` is that project's id (0 at creation, increased by
exactly the inserted amount on each `add_investment`). -/
theorem crowdfund_totals_sum_invariant (ops : List DbOp)
    (hv : validDbOps initDB ops = true) : totalsMatch (runDbOps ops) :=
  (dbInv_foldl ops initDB dbInv_initDB hv).2.2

theorem crowdfund_totals_sum_invariant_witness :
    validDbOps initDB
        [DbOp.createProj "solar" "roof" 10 2 none "t1",
         DbOp.addInv 1 5 none none "t2"] = true
    ∧ totalsMatch (runDbOps
        [DbOp.createProj "solar" "roof" 10 2 none "t1",
         DbOp.addInv 1 5 none none "t2"]) :=
  ⟨by decide,
   crowdfund_totals_sum_invariant
     [DbOp.createProj "solar" "roof" 10 2 none "t1",
      DbOp.addInv 1 5 none none "t2"] (by decide)⟩

/-- C3: login authentication is a SHA-256 password comparison: for every
submitted email and password, the login succeeds (no error) iff a user row
with the normalised email exists and the hex SHA-256 digest of the submitted
password equals that row's stored `password_hash`; otherwise the error
"Incorrect email or password." is shown and the session is left unchanged
(in particular it stays logged out). -/
theorem crowdfund_login_sha256_iff (db : DB) (auth : AuthState) (e pw : String) :
    ((loginSubmit db auth e pw).2 = none
      ↔ ∃ u, get_user_by_email db (normEmail e) = some u
          ∧ hash_password pw = u.password_hash)
    ∧ ((loginSubmit db auth e pw).2 = none ∧ (loginSubmit db auth e pw).1.logged_in = true
        ∨ loginSubmit db auth e pw = (auth, some "Incorrect email or password.")) := by
  cases hfind : get_user_by_email db (normEmail e) with
  | none =>
      have hres : loginSubmit db auth e pw = (auth, some "Incorrect email or password.") := by
        unfold loginSubmit
        rw [show get_user_by_email db (pyLower (pyStrip e)) = none from hfind]
      rw [hres]
      refine ⟨⟨fun hnone => Option.noConfusion hnone, ?_⟩, Or.inr rfl⟩
      rintro ⟨u, hu, _⟩
      exact Option.noConfusion hu
  | some u =>
      by_cases hcmp : hash_password pw = u.password_hash
      · have hres : loginSubmit db auth e pw
            = (⟨true, some u.email, some (displayNameOf u)⟩, none) := by
          unfold loginSubmit
          rw [show get_user_by_email db (pyLower (pyStrip e)) = some u from hfind]
          simp only [compare_digest, beq_iff_eq]
          rw [if_pos hcmp.symm]
        rw [hres]
        exact ⟨⟨fun _ => ⟨u, rfl, hcmp⟩, fun _ => rfl⟩, Or.inl ⟨rfl, rfl⟩⟩
      · have hres : loginSubmit db auth e pw = (auth, some "Incorrect email or password.") := by
          unfold loginSubmit
          rw [show get_user_by_email db (pyLower (pyStrip e)) = some u from hfind]
          simp only [compare_digest, beq_iff_eq]
          rw [if_neg (fun hh => hcmp hh.symm)]
        rw [hres]
        refine ⟨⟨fun hnone => Option.noConfusion hnone, ?_⟩, Or.inr rfl⟩
        rintro ⟨u2, hu2, heq2⟩
        have hu2e := Option.some.inj hu2
        subst hu2e
        exact absurd heq2 hcmp

/-- C6: an investment submitted from the invest page with `amount <= 0` or
`amount > remaining` (where `remaining = max(value_needed - total_raised, 0)`)
is rejected with an error message and leaves the database unchanged — no
investment row is inserted and no `total_raised` is modified — and
`add_investment` is called exactly when `0 < amount <= remaining`. -/
theorem crowdfund_invest_validation (db : DB) (pid : Nat) (amt : ℚ) (cn cu : String)
    (now : String) (project : ProjectRow) (hp : get_project db pid = some project) :
    (amt ≤ 0 →
      investClick db pid amt cn cu now = (db, some "Please enter a positive amount."))
    ∧ (0 < amt → remainingFor project < amt →
        investClick db pid amt cn cu now
          = (db, some "Amount exceeds the remaining amount needed for this project."))
    ∧ (0 < amt → amt ≤ remainingFor project →
        investClick db pid amt cn cu now
          = (add_investment db project.id amt (some cn) (some cu) now, none)) := by
  have hkey : investClick db pid amt cn cu now
      = (if amt ≤ 0 then (db, some "Please enter a positive amount.")
         else if amt > remainingFor project then
           (db, some "Amount exceeds the remaining amount needed for this project.")
         else (add_investment db project.id amt (some cn) (some cu) now, none)) := by
    unfold investClick
    rw [hp]
  rw [hkey]
  refine ⟨?_, ?_, ?_⟩
  · intro h1
    rw [if_pos h1]
  · intro h1 h2
    rw [if_neg (not_le.mpr h1), if_pos h2]
  · intro h1 h2
    rw [if_neg (not_le.mpr h1), if_neg (not_lt.mpr h2)]

theorem crowdfund_invest_validation_witness :
    get_project (create_project initDB "solar" "roof" 1 0 none "t0") 1
        = some ⟨1, "solar", "roof", 1, 0, none, 0, "t0"⟩
    ∧ ((0:ℚ) ≤ 0)
    ∧ investClick (create_project initDB "solar" "roof" 1 0 none "t0") 1 0 "alice" "a@x" "t1"
        = (create_project initDB "solar" "roof" 1 0 none "t0",
           some "Please enter a positive amount.")
    ∧ remainingFor ⟨1, "solar", "roof", 1, 0, none, 0, "t0"⟩ < 2
    ∧ investClick (create_project initDB "solar" "roof" 1 0 none "t0") 1 2 "alice" "a@x" "t1"
        = (create_project initDB "solar" "roof" 1 0 none "t0",
           some "Amount exceeds the remaining amount needed for this project.")
    ∧ (1:ℚ) ≤ remainingFor ⟨1, "solar", "roof", 1, 0, none, 0, "t0"⟩
    ∧ investClick (create_project initDB "solar" "roof" 1 0 none "t0") 1 1 "alice" "a@x" "t1"
        = (add_investment (create_project initDB "solar" "roof" 1 0 none "t0")
            (⟨1, "solar", "roof", 1, 0, none, 0, "t0"⟩ : ProjectRow).id 1
            (some "alice") (some "a@x") "t1", none) :=
  ⟨rfl,
   by decide,
   (crowdfund_invest_validation (create_project initDB "solar" "roof" 1 0 none "t0")
      1 0 "alice" "a@x" "t1" ⟨1, "solar", "roof", 1, 0, none, 0, "t0"⟩ rfl).1 (by decide),
   by simp [remainingFor],
   (crowdfund_invest_validation (create_project initDB "solar" "roof" 1 0 none "t0")
      1 2 "alice" "a@x" "t1" ⟨1, "solar", "roof", 1, 0, none, 0, "t0"⟩ rfl).2.1
     (by decide) (by simp [remainingFor]),
   by simp [remainingFor],
   (crowdfund_invest_validation (create_project initDB "solar" "roof" 1 0 none "t0")
      1 1 "alice" "a@x" "t1" ⟨1, "solar", "roof", 1, 0, none, 0, "t0"⟩ rfl).2.2
     (by decide) (by simp [remainingFor])⟩

theorem registerSubmit_users (db : DB) (e n pw pw2 now : String) :
    (registerSubmit db e n pw pw2 now).1.users = db.users
    ∨ (registerSubmit db e n pw pw2 now).1.users
        = db.users ++ [⟨db.nextUserId, normEmail e, stripOrNone n, hash_password pw, now⟩] := by
  unfold registerSubmit create_user
  dsimp only
  repeat' split
  all_goals try exact Or.inl rfl
  rename_i db2 hmatch
  split at hmatch
  · exact Except.noConfusion hmatch
  · have hdb2 := Except.ok.inj hmatch
    subst hdb2
    exact Or.inr rfl

/-- C7: email addresses are normalised by `strip()` and `lower()` both at
registration and at login: registration stores only normalised emails — so
stored user emails are always trimmed lower-case strings, normalisation
being idempotent — and the login lookup for any variant of a registered
email that differs only in letter case or in surrounding whitespace resolves
to the same user row. -/
theorem crowdfund_email_normalisation (db : DB) (e n pw pw2 now : String)
    (w₁ w₂ e₁ e₂ : String)
    (hnorm : ∀ u ∈ db.users, normEmail u.email = u.email)
    (hw₁ : isSpaceStr w₁ = true) (hw₂ : isSpaceStr w₂ = true)
    (hvar : pyLower e₂ = pyLower e₁) :
    (∀ u ∈ (registerSubmit db e n pw pw2 now).1.users, normEmail u.email = u.email)
    ∧ get_user_by_email db (normEmail (w₁ ++ e₂ ++ w₂))
        = get_user_by_email db (normEmail e₁) := by
  constructor
  · intro u hu
    rcases registerSubmit_users db e n pw pw2 now with hu2 | hu2
    · rw [hu2] at hu
      exact hnorm u hu
    · rw [hu2] at hu
      rcases List.mem_append.mp hu with hu | hu
      · exact hnorm u hu
      · rcases List.mem_singleton.mp hu with rfl
        exact normEmail_idem e
  · rw [normEmail_pad_case w₁ w₂ e₁ e₂ hw₁ hw₂ hvar]

theorem crowdfund_email_normalisation_witness :
    (∀ u ∈ initDB.users, normEmail u.email = u.email)
    ∧ isSpaceStr " " = true
    ∧ isSpaceStr "  " = true
    ∧ pyLower "A@B.CoM" = pyLower "a@b.com"
    ∧ ((∀ u ∈ (registerSubmit initDB "x@y.z" "Bob" "pw" "pw" "t").1.users,
          normEmail u.email = u.email)
      ∧ get_user_by_email initDB (normEmail (" " ++ "A@B.CoM" ++ "  "))
          = get_user_by_email initDB (normEmail "a@b.com")) :=
  ⟨by decide, by decide, by decide, by decide,
   crowdfund_email_normalisation initDB "x@y.z" "Bob" "pw" "pw" "t" " " "  "
     "a@b.com" "A@B.CoM" (by decide) (by decide) (by decide) (by decide)⟩
